import Mathlib

/-!
# Verification of cursor-tap against its specification

Shallow embedding of the parts of the `cursor-tap` proxy relevant to the
frozen claims: the HTTP-stream recorder (`internal/httpstream/recorder.go`),
the gRPC/Connect frame decoder (`internal/httpstream`, decoder part of
`recorder.go`), the HTTP parser pipeline (`httpstream` parser file), the
SNI sniffer (`internal/mitm/detect.go`) and the certificate minting code
(`internal/ca/ca.go`).

Go strings and byte slices are modelled as lists of natural numbers
(byte values); Go `len` and slicing on strings are byte-based, which this
representation preserves.  Machine counters (`int64` sequence numbers and
record indexes) are modelled as `Nat`: they are only ever incremented by
one and never wrap in any reachable execution considered by the claims.
Wall-clock timestamps are outside the model; no claim concerns them.
-/

namespace CursorTap

/-- Go byte slices / strings as lists of byte values (0..255 in real traffic). -/
abbrev Bytes := List Nat

/-- Byte list of an ASCII string literal (models Go string constants). -/
def strB (s : String) : Bytes := s.data.map Char.toNat

/-- `hasPrefB p s` models Go `strings.HasPrefix(s, p)` / `bytes.HasPrefix`. -/
def hasPrefB : Bytes → Bytes → Bool
  | [], _ => true
  | _ :: _, [] => false
  | a :: as, b :: bs => a == b && hasPrefB as bs

theorem hasPrefB_append_self (p t : Bytes) : hasPrefB p (p ++ t) = true := by
  induction p with
  | nil => rfl
  | cons a as ih => simp [hasPrefB, ih]

/-- Splitting a prefix test across an append: the part of `p` that overlaps
`q` is tested against `q`, the remainder against `t`. -/
theorem hasPrefB_append_split (p q t : Bytes) :
    hasPrefB p (q ++ t) = (hasPrefB (p.take q.length) q && hasPrefB (p.drop q.length) t) := by
  induction p generalizing q with
  | nil => simp [hasPrefB]
  | cons a as ih =>
    cases q with
    | nil => simp [hasPrefB]
    | cons b bs =>
      simp only [List.cons_append, hasPrefB, List.length_cons, List.take_succ_cons,
        List.drop_succ_cons, List.append_eq, ih, Bool.and_assoc]

theorem beq_append_ne_of_length_lt (a b c : Bytes) (h : c.length < a.length) :
    ((a ++ b) == c) = false := by
  apply beq_eq_false_iff_ne.mpr
  intro heq
  have hlen := congrArg List.length heq
  simp only [List.length_append] at hlen
  omega

/-- Models Go `strings.ToLower` on the ASCII range.  All content-type
patterns compared against are ASCII; on ASCII bytes this agrees with the
rune-based Go function, and it leaves every ASCII-lowercase prefix intact. -/
def toLowerB (s : Bytes) : Bytes :=
  s.map (fun c => if 65 ≤ c ∧ c ≤ 90 then c + 32 else c)

theorem toLowerB_append (a b : Bytes) : toLowerB (a ++ b) = toLowerB a ++ toLowerB b :=
  List.map_append _ a b

/-- `ContentTypeInfo` from the decoder: classification of a content type. -/
structure ContentTypeInfo where
  isGRPC : Bool
  isConnectProto : Bool
  isConnectStreamProto : Bool
  isConnectJSON : Bool
deriving Repr, DecidableEq

/-- `ParseContentType` (decoder): lower-cases the content type and tests the
four classification patterns exactly as the Go code does. -/
def parseContentType (contentType : Bytes) : ContentTypeInfo :=
  let ct := toLowerB contentType
  { isGRPC := hasPrefB (strB "application/grpc") ct
    isConnectProto := ct == strB "application/proto" || hasPrefB (strB "application/proto;") ct
    isConnectStreamProto := hasPrefB (strB "application/connect+proto") ct
    isConnectJSON := ct == strB "application/json" || hasPrefB (strB "application/json;") ct }

/-- `ContentTypeInfo.HasEnvelopeFraming` from the decoder. -/
def ContentTypeInfo.hasEnvelopeFraming (c : ContentTypeInfo) : Bool :=
  c.isGRPC || c.isConnectStreamProto

/-- `IsGRPCContentType` from the decoder. -/
def isGRPCContentType (contentType : Bytes) : Bool :=
  let info := parseContentType contentType
  info.isGRPC || info.isConnectProto || info.isConnectStreamProto

/-- `truncateString` from the recorder: keep at most `max` bytes, appending
"..." when truncation happened. -/
def truncateString (s : Bytes) (max : Nat) : Bytes :=
  if s.length ≤ max then s else s.take max ++ strB "..."

/-- `Direction` from the httpstream types file. -/
inductive Direction where
  | clientToServer
  | serverToClient
deriving Repr, DecidableEq

/-- `Direction.String` from the httpstream types file. -/
def Direction.str : Direction → Bytes
  | .clientToServer => strB "C2S"
  | .serverToClient => strB "S2C"

/-- `GRPCFrame` from the decoder.  `data` is `none` exactly when the Go
field `Data` is a nil slice (which happens only after a failed
decompression); a successfully produced empty payload is `some []`. -/
structure GRPCFrame where
  compressed : Bool
  data : Option Bytes
  rawData : Bytes
deriving Repr, DecidableEq

/-- `GRPCMessage` from the decoder.  The deserialised protobuf value
(Go field `Message`) is modelled as an opaque handle. -/
structure GRPCMessage where
  service : Bytes := []
  method : Bytes := []
  fullMethod : Bytes := []
  direction : Direction := .clientToServer
  frame : Option GRPCFrame := none
  message : Option Nat := none
  json : Bytes := []
  error : Bytes := []
  isStreaming : Bool := false
  frameIndex : Nat := 0
  compressedF : Bool := false
deriving Repr, DecidableEq

/-- `MessageRegistry` from the decoder, reduced to its two lookup maps
(`GetRequestType` / `GetResponseType`); message types are opaque handles.
The lazy population strategies consult the ambient protobuf descriptor
pool, which is runtime input; the populated maps are therefore taken as a
parameter of the model. -/
structure MessageRegistryM where
  requests : Bytes → Bytes → Option Nat
  responses : Bytes → Bytes → Option Nat

/-- The gzip inflate routine of the Go standard library, as an oracle:
`none` models a decompression error. -/
abbrev GunzipFn := Bytes → Option Bytes

/-- `proto.Unmarshal` followed by `protojson.Marshal` for an opaque message
type, as an oracle: `Except.error e` models either failure with its message
(the Go code distinguishes the two only in the error text it formats). -/
abbrev UnmarshalFn := Nat → Bytes → Except Bytes Bytes

/-- `decompressGzip` from the decoder: empty input is returned unchanged
without consulting gzip. -/
def decompressGzip (gz : GunzipFn) (data : Bytes) : Option Bytes :=
  if data = [] then some data else gz data

/-- `ParseMethodFromURL` from the decoder: strip one leading slash, then
split at the last slash. -/
def parseMethodFromURL (url : Bytes) : Bytes × Bytes × Bytes :=
  let fullMethod := url
  let path := match url with
    | 47 :: rest => rest
    | l => l
  match (path.reverse.findIdx? (· == 47)) with
  | none => ([], [], fullMethod)
  | some j =>
    let idx := path.length - 1 - j
    (path.take idx, path.drop (idx + 1), fullMethod)

/-- Error results of `GRPCParser.ReadFrame`: end of stream, a short read
inside a frame (`io.ErrUnexpectedEOF`), or the 16 MiB sanity bound. -/
inductive FrameReadErr where
  | eof
  | unexpectedEof
  | frameTooLarge (n : Nat)
deriving Repr, DecidableEq

/-- `GRPCParser.ReadFrame` from the decoder: 5-byte header
`[compressed:1][length:4 big-endian]`, 16 MiB bound, then the payload;
the payload is gunzipped when the compressed flag is set, keeping the raw
bytes and leaving `data` nil on failure.  Returns the frame and the rest of
the stream. -/
def readFrame (gz : GunzipFn) : Bytes → Except FrameReadErr (GRPCFrame × Bytes)
  | [] => .error .eof
  | b0 :: b1 :: b2 :: b3 :: b4 :: rest =>
    let compressed := b0 == 1
    let length := ((b1 * 256 + b2) * 256 + b3) * 256 + b4
    if 16 * 1024 * 1024 < length then .error (.frameTooLarge length)
    else if rest.length < length then .error .unexpectedEof
    else
      let rawData := rest.take length
      let data := if compressed then decompressGzip gz rawData else some rawData
      .ok ({ compressed := compressed, data := data, rawData := rawData }, rest.drop length)
  | _ => .error .unexpectedEof

/-- `GRPCParser.ParseMessage` from the decoder, with the registry lookup and
protobuf machinery as parameters.  Mirrors the Go branch order: failed
decompression, the literal `{}` body, the empty body, missing registry,
unknown message type, unmarshal, JSON rendering. -/
def parseMessage (unm : UnmarshalFn) (registry : Option MessageRegistryM)
    (frame : GRPCFrame) (service method : Bytes) (isRequest : Bool) : GRPCMessage :=
  let msg : GRPCMessage :=
    { service := service, method := method
      fullMethod := [47] ++ service ++ [47] ++ method
      direction := if isRequest then .clientToServer else .serverToClient
      frame := some frame, compressedF := frame.compressed }
  if frame.compressed && frame.data.isNone then
    { msg with error := strB "gzip decompression failed" }
  else
    let data := frame.data.getD []
    if data.length == 2 && data == strB "{}" then { msg with json := strB "{}" }
    else if data.length == 0 then { msg with json := strB "{}" }
    else match registry with
    | none => { msg with error := strB "no message registry" }
    | some reg =>
      match (if isRequest then reg.requests service method else reg.responses service method) with
      | none =>
        { msg with error := strB "unknown message type for " ++ service ++ [47] ++ method
            ++ strB " (request=" ++ strB (if isRequest then "true" else "false") ++ strB ")" }
      | some msgType =>
        match unm msgType data with
        | .error e => { msg with error := e }
        | .ok jsonBytes => { msg with message := some msgType, json := jsonBytes }

/-- Loop body of `Parser.parseGRPCStream`: read frames one by one, tagging
each message with `isStreaming` and its frame index; both the `io.EOF` break
and the error break produce no further gRPC messages (the latter only logs
a debug line).  Fuel is the remaining input length plus one; every
successful read consumes at least five bytes. -/
def parseGRPCStreamLoop (gz : GunzipFn) (unm : UnmarshalFn) (registry : Option MessageRegistryM)
    (service method : Bytes) (isRequest : Bool) :
    Nat → Bytes → Nat → List GRPCMessage
  | 0, _, _ => []
  | fuel + 1, input, frameIndex =>
    match readFrame gz input with
    | .error _ => []
    | .ok (frame, rest) =>
      let msg := parseMessage unm registry frame service method isRequest
      let msg := { msg with isStreaming := true, frameIndex := frameIndex
                            compressedF := frame.compressed }
      msg :: parseGRPCStreamLoop gz unm registry service method isRequest fuel rest (frameIndex + 1)

/-- `Parser.parseGRPCStream` from the parser file. -/
def parseGRPCStream (gz : GunzipFn) (unm : UnmarshalFn) (registry : Option MessageRegistryM)
    (body service method : Bytes) (isRequest : Bool) : List GRPCMessage :=
  parseGRPCStreamLoop gz unm registry service method isRequest (body.length + 1) body 0

/-- `parseConnectProtoBody` from the decoder: the whole body as one
unframed frame. -/
def parseConnectProtoBody (unm : UnmarshalFn) (registry : Option MessageRegistryM)
    (body service method : Bytes) (isRequest : Bool) : List GRPCMessage :=
  let frame : GRPCFrame := { compressed := false, data := some body, rawData := [] }
  [parseMessage unm registry frame service method isRequest]

/-- `Parser.parseGRPCBody` from the parser file: envelope-framed content
types go to the streaming loop; otherwise the whole (decoded) body is read,
an empty body produces no records at all, and a non-empty one is parsed as
a single raw protobuf message (`ParseGRPCBody` with a non-envelope content
type always reaches `parseConnectProtoBody`). -/
def parserParseGRPCBody (gz : GunzipFn) (unm : UnmarshalFn) (registry : Option MessageRegistryM)
    (body urlPath : Bytes) (isRequest : Bool) (contentType : Bytes) : List GRPCMessage :=
  let sm := parseMethodFromURL urlPath
  let service := sm.1
  let method := sm.2.1
  let ctInfo := parseContentType contentType
  if ctInfo.hasEnvelopeFraming then
    parseGRPCStream gz unm registry body service method isRequest
  else if body.length == 0 then []
  else parseConnectProtoBody unm registry body service method isRequest

/-- One sextet of the standard base64 alphabet. -/
def base64Char (n : Nat) : Nat :=
  if n < 26 then 65 + n
  else if n < 52 then 97 + (n - 26)
  else if n < 62 then 48 + (n - 52)
  else if n = 62 then 43
  else 47

/-- `base64.StdEncoding.EncodeToString` from the Go standard library:
3-byte groups to 4 alphabet characters, '=' padding. -/
def base64Encode : Bytes → Bytes
  | [] => []
  | [b1] => [base64Char (b1 / 4), base64Char (b1 % 4 * 16), 61, 61]
  | [b1, b2] => [base64Char (b1 / 4), base64Char (b1 % 4 * 16 + b2 / 16),
      base64Char (b2 % 16 * 4), 61]
  | b1 :: b2 :: b3 :: rest =>
    base64Char (b1 / 4) :: base64Char (b1 % 4 * 16 + b2 / 16) ::
      base64Char (b2 % 16 * 4 + b3 / 64) :: base64Char (b3 % 64) :: base64Encode rest

/-- `Record` from the recorder: the JSONL record.  A `[]`/`0`/`false` value
in a field marked `omitempty` in Go means the key is absent from the JSON.
The wall-clock `ts` field is outside the model. -/
structure Record where
  sessionId : Bytes := []
  seq : Nat := 0
  index : Nat := 0
  type : Bytes := []
  method : Bytes := []
  url : Bytes := []
  host : Bytes := []
  status : Nat := 0
  statusText : Bytes := []
  eventType : Bytes := []
  eventId : Bytes := []
  eventData : Bytes := []
  direction : Bytes := []
  size : Nat := 0
  body : Bytes := []
  bodyBase64 : Bytes := []
  bodyEncoding : Bytes := []
  contentType : Bytes := []
  grpcService : Bytes := []
  grpcMethod : Bytes := []
  grpcData : Bytes := []
  grpcStreaming : Bool := false
  grpcFrameIndex : Nat := 0
  grpcCompressed : Bool := false
  grpcRawData : Bytes := []
  error : Bytes := []
deriving Repr, DecidableEq

/-- `Session` from the recorder: random id, global sequence number assigned
once at `NewSession`, target host, and the per-session record counter. -/
structure Session where
  id : Bytes := []
  seq : Nat := 0
  host : Bytes := []
  recordIndex : Nat := 0
deriving Repr, DecidableEq

/-- `Session.nextRecordIndex`: increment, then use the incremented value. -/
def nextRecordIndex (s : Session) : Nat × Session :=
  (s.recordIndex + 1, { s with recordIndex := s.recordIndex + 1 })

/-- The modelled `SSEEvent` (httpstream types file). -/
structure SSEEventM where
  id : Bytes := []
  event : Bytes := []
  data : Bytes := []
  retry : Nat := 0
  raw : Bytes := []
deriving Repr, DecidableEq

/-- `Session.LogSSE` from the recorder: default event type "message",
event data truncated to 1000 bytes. -/
def logSSE (s : Session) (host : Bytes) (event : SSEEventM) : Session × Record :=
  let eventType := if event.event == [] then strB "message" else event.event
  let r := nextRecordIndex s
  (r.2,
    { sessionId := s.id, seq := s.seq, index := r.1, type := strB "sse"
      host := host, eventType := eventType, eventId := event.id
      eventData := truncateString event.data 1000 })

/-- `Session.LogGRPC` from the recorder: `grpc_data` when JSON is present,
otherwise the frame's (possibly nil) `Data` length as `size`; on error the
error text plus, when the frame's `Data` slice is non-empty, its base64 as
`grpc_raw`. -/
def logGRPC (s : Session) (msg : GRPCMessage) : Session × Record :=
  let r := nextRecordIndex s
  let rec0 : Record :=
    { sessionId := s.id, seq := s.seq, index := r.1, type := strB "grpc"
      direction := msg.direction.str, host := s.host
      grpcService := msg.service, grpcMethod := msg.method, url := msg.fullMethod
      grpcStreaming := msg.isStreaming, grpcFrameIndex := msg.frameIndex
      grpcCompressed := msg.compressedF }
  let rec1 :=
    if msg.json != [] then { rec0 with grpcData := msg.json }
    else match msg.frame with
      | some f => { rec0 with size := (f.data.getD []).length }
      | none => rec0
  let rec2 :=
    if msg.error != [] then
      let withErr := { rec1 with error := msg.error }
      match msg.frame with
      | some f =>
        if 0 < (f.data.getD []).length then
          { withErr with grpcRawData := base64Encode (f.data.getD []) }
        else withErr
      | none => withErr
    else rec1
  (r.2, rec2)

/-- Split off one line up to and including the first `\n`; `none` models
`ReadBytes` returning an error (EOF) before any newline, in which case the
caller discards the partial line. -/
def splitAtNewline (input : Bytes) : Option (Bytes × Bytes) :=
  match input.findIdx? (· == 10) with
  | none => none
  | some i => some (input.take (i + 1), input.drop (i + 1))

/-- `bytes.TrimSuffix` for a one-byte suffix. -/
def trimSuffix1 (s : Bytes) (c : Nat) : Bytes :=
  if s.getLast? == some c then s.dropLast else s

/-- ASCII whitespace (models `bytes.TrimSpace`, which the SSE field parser
only meets on ASCII input). -/
def isSpaceB (c : Nat) : Bool :=
  c == 32 || c == 9 || c == 10 || c == 13 || c == 11 || c == 12

def trimSpaceB (s : Bytes) : Bytes :=
  ((s.dropWhile isSpaceB).reverse.dropWhile isSpaceB).reverse

/-- `strconv.Atoi` (decimal, optional sign). -/
def atoiDigits (s : Bytes) : Option Nat :=
  if s ≠ [] ∧ s.all (fun c => 48 ≤ c ∧ c ≤ 57) then
    some (s.foldl (fun acc c => acc * 10 + (c - 48)) 0)
  else none

def atoiB (s : Bytes) : Option Int :=
  match s with
  | 43 :: rest => (atoiDigits rest).map Int.ofNat
  | 45 :: rest => (atoiDigits rest).map (fun n => -(Int.ofNat n))
  | _ => (atoiDigits s).map Int.ofNat

/-- `parseSSEField` from the SSE parser file: standard `field: value`,
plus the lenient `field value` form when no colon is present. -/
def parseSSEField (line : Bytes) : Bytes × Bytes :=
  match line.findIdx? (· == 58) with
  | none =>
    match line.findIdx? (· == 32) with
    | some i => (line.take i, trimSpaceB (line.drop (i + 1)))
    | none => (line, [])
  | some idx =>
    let field := line.take idx
    let value := line.drop (idx + 1)
    let value := if value.head? == some 32 then value.drop 1 else value
    (field, value)

/-- `bytes.Join(lines, "\n")`. -/
def joinNL (lines : List Bytes) : Bytes := List.intercalate [10] lines

/-- Loop of `SSEParser.Next`: accumulate fields until a blank line (or EOF
with accumulated data).  Returns the event, the unconsumed input, and the
parser's `lastID` state.  Fuel is the input length plus one: every
iteration consumes at least the newline byte. -/
def sseNextLoop : Nat → Bytes → Bytes → SSEEventM → Bool → List Bytes →
    Option (SSEEventM × Bytes × Bytes)
  | 0, _, _, _, _, _ => none
  | fuel + 1, lastID, input, ev, hasData, rawLines =>
    match splitAtNewline input with
    | none =>
      if hasData then some ({ ev with raw := joinNL rawLines }, [], lastID)
      else none
    | some (line, rest) =>
      let rawLines1 := rawLines ++ [line]
      let line1 := trimSuffix1 (trimSuffix1 line 10) 13
      if line1 == [] then
        if hasData then
          let id1 := if ev.id == [] then lastID else ev.id
          some ({ ev with data := trimSuffix1 ev.data 10, id := id1
                          raw := joinNL rawLines1 }, rest, lastID)
        else sseNextLoop fuel lastID rest ev hasData []
      else if line1.head? == some 58 then
        sseNextLoop fuel lastID rest ev hasData rawLines1
      else
        let fv := parseSSEField line1
        if fv.1 == strB "data" then
          sseNextLoop fuel lastID rest
            { ev with data := ev.data ++ fv.2 ++ [10] } true rawLines1
        else if fv.1 == strB "event" then
          sseNextLoop fuel lastID rest { ev with event := fv.2 } hasData rawLines1
        else if fv.1 == strB "id" then
          if fv.2.contains 0 then sseNextLoop fuel lastID rest ev hasData rawLines1
          else sseNextLoop fuel fv.2 rest { ev with id := fv.2 } hasData rawLines1
        else if fv.1 == strB "retry" then
          match atoiB fv.2 with
          | some n =>
            if 0 ≤ n then
              sseNextLoop fuel lastID rest { ev with retry := n.toNat } hasData rawLines1
            else sseNextLoop fuel lastID rest ev hasData rawLines1
          | none => sseNextLoop fuel lastID rest ev hasData rawLines1
        else sseNextLoop fuel lastID rest ev hasData rawLines1

/-- `SSEParser.Next` on a byte stream. -/
def sseNext (lastID input : Bytes) : Option (SSEEventM × Bytes × Bytes) :=
  sseNextLoop (input.length + 1) lastID input {} false []

/-- `Parser.parseSSEEvents`: read events until the parser errors (EOF). -/
def sseAllEventsLoop : Nat → Bytes → Bytes → List SSEEventM
  | 0, _, _ => []
  | fuel + 1, lastID, input =>
    match sseNext lastID input with
    | none => []
    | some (ev, rest, lastID1) => ev :: sseAllEventsLoop fuel lastID1 rest

def sseAllEvents (input : Bytes) : List SSEEventM :=
  sseAllEventsLoop (input.length + 1) [] input

/-- `strings.Contains` on bytes. -/
def hasSubstr (sub : Bytes) : Bytes → Bool
  | [] => sub == []
  | a :: t => hasPrefB sub (a :: t) || hasSubstr sub t

/-- The parser's request/response correlation state
(`lastRequestURL`, `lastRequestIsGRPC`, `lastRequestContentType`). -/
structure PendingSlot where
  lastRequestURL : Bytes := []
  lastRequestIsGRPC : Bool := false
  lastRequestContentType : Bytes := []
deriving Repr, DecidableEq

/-- One emission of the parser towards the session logger; each constructor
corresponds to one `Logger` method call in the parser file. -/
inductive ParserEvent where
  | response (status : Nat) (contentType : Bytes)
  | sse (ev : SSEEventM)
  | body (dir : Direction) (data : Bytes)
  | grpc (m : GRPCMessage)
  | errorRec (msg : Bytes)
  | debug (msg : Bytes)
deriving Repr, DecidableEq

/-- The record `type` the session logger writes for each parser event
(per the corresponding `Session.Log*` method in the recorder). -/
def eventRecordType : ParserEvent → Bytes
  | .response _ _ => strB "response"
  | .sse _ => strB "sse"
  | .body _ _ => strB "body"
  | .grpc _ => strB "grpc"
  | .errorRec _ => strB "error"
  | .debug _ => strB "debug"

/-- One iteration of `Parser.parseResponses` after `http.ReadResponse`
succeeded: log the response, pop and clear the pending-request slot, then
route the body.  `body` is the stream after the base HTTP reader and the
content-encoding chain (`BodyReader`), whose decoding is upstream of this
routing.  Mirrors the four routing cases of the source in order. -/
def responseStep (gz : GunzipFn) (unm : UnmarshalFn) (registry : Option MessageRegistryM)
    (slot : PendingSlot) (status : Nat) (contentType body : Bytes) :
    List ParserEvent × PendingSlot :=
  let respEvent := ParserEvent.response status contentType
  let requestPath := slot.lastRequestURL
  let requestWasGRPC := slot.lastRequestIsGRPC
  let slot1 : PendingSlot := {}
  let isSSE := hasSubstr (strB "text/event-stream") contentType
  if isGRPCContentType contentType && requestPath != [] then
    (respEvent :: (parserParseGRPCBody gz unm registry body requestPath false contentType).map
        ParserEvent.grpc, slot1)
  else if requestWasGRPC && requestPath != [] then
    let sm := parseMethodFromURL requestPath
    (respEvent :: (parseGRPCStream gz unm registry body sm.1 sm.2.1 false).map
        ParserEvent.grpc, slot1)
  else if isSSE then
    (respEvent :: (sseAllEvents body).map ParserEvent.sse, slot1)
  else
    (respEvent :: (if 0 < body.length then [ParserEvent.body .serverToClient body] else []),
      slot1)

/-- The ordering header every `Session.Log*` method stamps on its record:
the session (identified here by its creation rank), the session's global
sequence number, and the per-session record index. -/
structure EmitRec where
  sid : Nat
  seq : Nat
  index : Nat
deriving Repr, DecidableEq

/-- Recorder process state: the `sessionSeq` atomic counter, the sessions
created so far (in creation order; a session's handle is its position), and
the records emitted so far in emission order. -/
structure RecorderSt where
  sessionSeq : Nat := 0
  sessions : List Session := []
  emitted : List EmitRec := []
deriving Repr, DecidableEq

/-- The recorder's operations under the *serialised schedule*:
`Recorder.NewSession`, and a record emission on an existing session
treated as one step (`nextRecordIndex` immediately followed by
`Recorder.write`).  In the code only the write is under the recorder's
mutex — the index increment is not — so this schedule is one possible
interleaving, not the only one; see `RaceOp` below for the finer-grained
model.  Conclusions drawn from this model about `seq` alone remain valid
for every interleaving, because `seq` is fixed at `NewSession` by an
atomic counter and never mutated afterwards. -/
inductive RecorderOp where
  | newSession (host : Bytes)
  | emit (sid : Nat)
deriving Repr, DecidableEq

/-- `Recorder.NewSession`: `seq := sessionSeq.Add(1)`, fresh session with
`recordIndex = 0`. -/
def newSessionStep (host : Bytes) (st : RecorderSt) : RecorderSt :=
  let seq := st.sessionSeq + 1
  { st with
    sessionSeq := seq
    sessions := st.sessions ++ [{ id := [], seq := seq, host := host, recordIndex := 0 }] }

/-- A record emission on session `sid` under the serialised schedule:
`nextRecordIndex` then append the record, as one step.  An unknown handle
is a no-op (it cannot occur in the program, where handles are the session
pointers).  This atomic treatment is an idealisation: in the source the
`s.recordIndex++` of `nextRecordIndex` runs before `Recorder.write`
acquires `r.mu` and is not itself synchronised, while one `Session` is
shared by the two direction-parser goroutines — the finer-grained
`raceStep` model captures the interleavings this step shape excludes. -/
def emitStep (st : RecorderSt) (sid : Nat) : RecorderSt :=
  match st.sessions[sid]? with
  | none => st
  | some s =>
    let r := nextRecordIndex s
    { st with
      sessions := st.sessions.set sid r.2
      emitted := st.emitted ++ [⟨sid, s.seq, r.1⟩] }

def recStep (st : RecorderSt) : RecorderOp → RecorderSt
  | .newSession host => newSessionStep host st
  | .emit sid => emitStep st sid

/-- Run a whole interleaving of session creations and emissions from the
recorder's initial state. -/
def runOps (ops : List RecorderOp) : RecorderSt :=
  ops.foldl recStep {}

/-- The record indexes emitted for session `sid`, in emission order. -/
def emittedIndices (st : RecorderSt) (sid : Nat) : List Nat :=
  (st.emitted.filter (fun r => r.sid == sid)).map (fun r => r.index)

/-- The current `recordIndex` counter of session `sid` (0 when absent). -/
def sessionCount (st : RecorderSt) (sid : Nat) : Nat :=
  match st.sessions[sid]? with
  | some s => s.recordIndex
  | none => 0

/-- Recorder invariant: the sequence counter equals the number of sessions,
session `k` carries sequence `k + 1`, every emitted record cites its
session's sequence, and the indexes emitted for a session are exactly
`1, …, recordIndex` in order. -/
def RecInv (st : RecorderSt) : Prop :=
  st.sessionSeq = st.sessions.length ∧
  (∀ (k : Nat) (s : Session), st.sessions[k]? = some s → s.seq = k + 1) ∧
  (∀ r ∈ st.emitted, r.sid < st.sessions.length ∧ r.seq = r.sid + 1) ∧
  (∀ sid, emittedIndices st sid = List.range' 1 (sessionCount st sid))

theorem recInv_init : RecInv {} := by
  refine ⟨rfl, ?_, ?_, ?_⟩
  · intro k s h; simp at h
  · intro r h; simp [RecorderSt.emitted] at h
  · intro sid; rfl

theorem recInv_newSession (host : Bytes) (st : RecorderSt) (h : RecInv st) :
    RecInv (newSessionStep host st) := by
  obtain ⟨h1, h2, h3, h4⟩ := h
  refine ⟨?_, ?_, ?_, ?_⟩
  · simp [newSessionStep, h1]
  · intro k s hk
    simp only [newSessionStep] at hk
    rcases lt_or_ge k st.sessions.length with hlt | hge
    · rw [List.getElem?_append_left hlt] at hk
      exact h2 k s hk
    · rw [List.getElem?_append_right hge] at hk
      have hk0 : k - st.sessions.length = 0 := by
        by_contra hne
        rw [List.getElem?_eq_none (by simp; omega)] at hk
        exact absurd hk (by simp)
      rw [hk0] at hk
      simp only [List.getElem?_cons_zero, Option.some.injEq] at hk
      have hseq : s.seq = st.sessionSeq + 1 := by rw [← hk]
      rw [hseq, h1]
      omega
  · intro r hr
    have := h3 r (by simpa [newSessionStep] using hr)
    constructor
    · simp only [newSessionStep, List.length_append, List.length_singleton]
      omega
    · exact this.2
  · intro sid
    have hcount : sessionCount (newSessionStep host st) sid = sessionCount st sid := by
      unfold sessionCount newSessionStep
      rcases lt_or_ge sid st.sessions.length with hlt | hge
      · rw [List.getElem?_append_left hlt]
      · have hnone : st.sessions[sid]? = none := List.getElem?_eq_none hge
        rw [hnone]
        rcases Nat.eq_or_lt_of_le hge with heq | hlt2
        · subst heq
          rw [List.getElem?_concat_length]
        · rw [List.getElem?_eq_none (by simp; omega)]
    calc emittedIndices (newSessionStep host st) sid
        = emittedIndices st sid := rfl
      _ = List.range' 1 (sessionCount st sid) := h4 sid
      _ = List.range' 1 (sessionCount (newSessionStep host st) sid) := by rw [hcount]

theorem recInv_emit (st : RecorderSt) (sid : Nat) (h : RecInv st) :
    RecInv (emitStep st sid) := by
  obtain ⟨h1, h2, h3, h4⟩ := h
  cases hs : st.sessions[sid]? with
  | none =>
    have : emitStep st sid = st := by simp [emitStep, hs]
    rw [this]
    exact ⟨h1, h2, h3, h4⟩
  | some s =>
    have hsidlt : sid < st.sessions.length := by
      by_contra hge
      rw [List.getElem?_eq_none (Nat.le_of_not_lt hge)] at hs
      exact absurd hs (by simp)
    have hstep : emitStep st sid =
        { st with
          sessions := st.sessions.set sid { s with recordIndex := s.recordIndex + 1 }
          emitted := st.emitted ++ [⟨sid, s.seq, s.recordIndex + 1⟩] } := by
      simp [emitStep, hs, nextRecordIndex]
    rw [hstep]
    refine ⟨?_, ?_, ?_, ?_⟩
    · simpa using h1
    · intro k s' hk
      simp only at hk
      rcases eq_or_ne sid k with heq | hne
      · subst heq
        rw [List.getElem?_set_self hsidlt] at hk
        injection hk with hk2
        rw [← hk2]
        exact h2 sid s hs
      · rw [List.getElem?_set_ne hne] at hk
        exact h2 k s' hk
    · intro r hr
      simp only [List.mem_append, List.mem_singleton] at hr
      rcases hr with hr | hr
      · have := h3 r hr
        exact ⟨by simpa using this.1, this.2⟩
      · subst hr
        refine ⟨by simpa using hsidlt, ?_⟩
        simpa using h2 sid s hs
    · intro sid'
      rcases eq_or_ne sid' sid with heq | hne
      · subst heq
        have hcnt0 : sessionCount st sid' = s.recordIndex := by
          unfold sessionCount; rw [hs]
        have hidx := h4 sid'
        rw [hcnt0] at hidx
        have hcnt1 : sessionCount
            { st with
              sessions := st.sessions.set sid' { s with recordIndex := s.recordIndex + 1 }
              emitted := st.emitted ++ [⟨sid', s.seq, s.recordIndex + 1⟩] } sid'
            = s.recordIndex + 1 := by
          unfold sessionCount
          simp only [List.getElem?_set_self hsidlt]
        rw [hcnt1]
        unfold emittedIndices at hidx ⊢
        simp only [List.filter_append, List.map_append, hidx]
        rw [List.range'_concat]
        congr 1
        simp
        omega
      · have hidx := h4 sid'
        unfold emittedIndices at hidx ⊢
        simp only [List.filter_append, List.map_append]
        have hb : (sid == sid') = false := beq_eq_false_iff_ne.mpr (Ne.symm hne)
        have hf : List.filter (fun r => r.sid == sid')
            [(⟨sid, s.seq, s.recordIndex + 1⟩ : EmitRec)] = [] := by
          simp [List.filter_cons, List.filter, hb]
        rw [hf]
        simp only [List.map_nil, List.append_nil]
        rw [hidx]
        congr 1
        unfold sessionCount
        rw [List.getElem?_set_ne (by omega)]

/-- The invariant holds after any interleaving. -/
theorem recInv_runOps (ops : List RecorderOp) : RecInv (runOps ops) := by
  have main : ∀ (ops : List RecorderOp) (st : RecorderSt), RecInv st →
      RecInv (ops.foldl recStep st) := by
    intro ops
    induction ops with
    | nil => intro st h; exact h
    | cons op rest ih =>
      intro st h
      cases op with
      | newSession host => exact ih _ (recInv_newSession host st h)
      | emit sid => exact ih _ (recInv_emit st sid h)
  exact main ops {} recInv_init

/-- `isValidHostname` from `detect.go`: length 1..255 bytes and every
character in `[a-zA-Z0-9.-_]`.  The Go loop ranges over runes; checking
bytes coincides with it, since non-ASCII runes and non-ASCII bytes are both
outside the accepted ranges. -/
def isValidHostname (s : Bytes) : Bool :=
  decide (s.length ≠ 0) && decide (s.length ≤ 255) &&
    s.all (fun c =>
      (decide (97 ≤ c) && decide (c ≤ 122)) ||
      (decide (65 ≤ c) && decide (c ≤ 90)) ||
      (decide (48 ≤ c) && decide (c ≤ 57)) ||
      c == 45 || c == 46 || c == 95)

/-- Loop of `parseSNIExtension`: walk the server-name list, returning the
first entry of type 0 that passes `isValidHostname`; `[]` models the Go
empty-string result.  Fuel bounds the walk (each iteration advances `pos`
by at least four). -/
def sniLoop (data : Bytes) (listEnd : Nat) : Nat → Nat → Bytes
  | 0, _ => []
  | fuel + 1, pos =>
    if pos + 3 ≤ listEnd then
      let nameType := data.getD pos 0
      let pos1 := pos + 1
      if listEnd < pos1 + 2 then []
      else
        let nameLen := (data.getD pos1 0) * 256 + data.getD (pos1 + 1) 0
        let pos2 := pos1 + 2
        if nameLen == 0 || decide (listEnd < pos2 + nameLen) then []
        else if nameType == 0 then
          let hostname := (data.drop pos2).take nameLen
          if isValidHostname hostname then hostname
          else sniLoop data listEnd fuel (pos2 + nameLen)
        else sniLoop data listEnd fuel (pos2 + nameLen)
    else []

/-- `parseSNIExtension` from `detect.go`: 2-byte list length (clamped to
the available data), then the entry walk. -/
def parseSNIExtension (data : Bytes) : Bytes :=
  if data.length < 5 then []
  else
    let listLen := (data.getD 0 0) * 256 + data.getD 1 0
    let listEnd := min (2 + listLen) data.length
    sniLoop data listEnd (data.length + 1) 2

/-- X.509 template fields set by `CA.generateCert` that the claims refer
to.  Times are seconds; `AddDate(0, 0, d)` adds `d` calendar days, modelled
as `d * 86400` seconds. -/
structure LeafTemplate where
  serialNumber : Nat
  commonName : Bytes
  notBefore : Int
  notAfter : Int
  isCA : Bool
  subjectKeyId : Bytes
  authorityKeyId : Bytes
  ipAddresses : List Bytes
  dnsNames : List Bytes
deriving Repr, DecidableEq

/-- The CA state `generateCert` reads: the root certificate's
`SubjectKeyId`, the root private key (an opaque handle), and the
normalised leaf validity in days. -/
structure CAModel where
  caSubjectKeyId : Bytes
  caKeyId : Nat
  certValidityDays : Int
deriving Repr, DecidableEq

/-- The `CertValidityDays` normalisation in `ca.New`: non-positive options
fall back to 3650. -/
def normCertValidityDays (d : Int) : Int := if d ≤ 0 then 3650 else d

/-- `ca.New`, restricted to the fields `generateCert` consumes. -/
def newCA (skid : Bytes) (keyId : Nat) (optDays : Int) : CAModel :=
  { caSubjectKeyId := skid, caKeyId := keyId, certValidityDays := normCertValidityDays optDays }

/-- Result of `x509.CreateCertificate(rand, template, parent, pub, signerKey)`
as called by `generateCert`: the template together with the parent
certificate's subject key id and the signing key's handle. -/
structure MintedCert where
  tmpl : LeafTemplate
  parentSubjectKeyId : Bytes
  signerKeyId : Nat
deriving Repr, DecidableEq

/-- `CA.generateCert` from `ca.go`.  The random serial and fresh key's
subject key id are inputs (outputs of the system randomness); `parseIP`
is `net.ParseIP` of the standard library, `none` meaning the host is not
an IP literal. -/
def generateCert (ca : CAModel) (host : Bytes) (now : Int)
    (parseIP : Bytes → Option Bytes) (serial : Nat) (leafSubjectKeyId : Bytes) : MintedCert :=
  { tmpl :=
    { serialNumber := serial
      commonName := host
      notBefore := now - 24 * 3600
      notAfter := now + ca.certValidityDays * 86400
      isCA := false
      subjectKeyId := leafSubjectKeyId
      authorityKeyId := ca.caSubjectKeyId
      ipAddresses := match parseIP host with | some ip => [ip] | none => []
      dnsNames := match parseIP host with | some _ => [] | none => [host] }
    parentSubjectKeyId := ca.caSubjectKeyId
    signerKeyId := ca.caKeyId }

/-- State of one forwarding direction of `Parser.pipeWithMirror`.
Chunks are abstract (numbered).  `pendingMirror` holds a chunk that
`io.TeeReader` has read from the source and is writing into the unbuffered
`io.Pipe`; the write completes only when the parser goroutine reads it
(`parserConsume`), after which `io.Copy` can write the chunk to the
destination (`forwardWrite`). -/
structure MirrorState where
  src : List Nat
  pendingMirror : Option Nat
  teeBuf : Option Nat
  mirrored : List Nat
  forwarded : List Nat
deriving Repr, DecidableEq

/-- Transitions of the mirror pipe.  `readSrc` models `tee.Read` pulling a
chunk from the source and starting the blocking `pw.Write`; `parserConsume`
is the parser side reading from the pipe, which completes that write;
`forwardWrite` is `io.Copy` passing the chunk on to the destination, which
the `TeeReader` contract only allows after the mirror write returned. -/
inductive MirrorStep : MirrorState → MirrorState → Prop
  | readSrc (st : MirrorState) (c : Nat) (rest : List Nat) :
      st.src = c :: rest → st.pendingMirror = none → st.teeBuf = none →
      MirrorStep st { st with src := rest, pendingMirror := some c }
  | parserConsume (st : MirrorState) (c : Nat) :
      st.pendingMirror = some c →
      MirrorStep st { st with pendingMirror := none, teeBuf := some c
                              mirrored := st.mirrored ++ [c] }
  | forwardWrite (st : MirrorState) (c : Nat) :
      st.teeBuf = some c →
      MirrorStep st { st with teeBuf := none, forwarded := st.forwarded ++ [c] }

def mirrorInit (src : List Nat) : MirrorState :=
  { src := src, pendingMirror := none, teeBuf := none, mirrored := [], forwarded := [] }

def MirrorReachable (src : List Nat) (st : MirrorState) : Prop :=
  Relation.ReflTransGen MirrorStep (mirrorInit src) st

/-- Pipe invariant: at most one chunk is in flight, and the destination
never holds a chunk the parser side has not consumed: `forwarded` trails
`mirrored` by exactly the chunk in `teeBuf`, if any. -/
def MirrorInv (st : MirrorState) : Prop :=
  (st.pendingMirror = none ∨ st.teeBuf = none) ∧
  (st.teeBuf = none → st.mirrored = st.forwarded) ∧
  (∀ c, st.teeBuf = some c → st.mirrored = st.forwarded ++ [c])

theorem mirrorInv_init (src : List Nat) : MirrorInv (mirrorInit src) := by
  refine ⟨Or.inl rfl, fun _ => rfl, fun c hc => ?_⟩
  exact absurd hc (by simp [mirrorInit])

theorem mirrorInv_step (a b : MirrorState) (hstep : MirrorStep a b) (h : MirrorInv a) :
    MirrorInv b := by
  obtain ⟨h1, h2, h3⟩ := h
  cases hstep with
  | readSrc c rest hsrc hp ht =>
    exact ⟨Or.inr ht, fun hb => h2 hb, fun d hd => h3 d hd⟩
  | parserConsume c hp =>
    have ht : a.teeBuf = none := by
      rcases h1 with h1 | h1
      · rw [h1] at hp; exact absurd hp (by simp)
      · exact h1
    refine ⟨Or.inl rfl, fun hb => absurd hb (by simp), fun d hd => ?_⟩
    have hcd : c = d := by simpa using hd
    subst hcd
    simp only []
    rw [h2 ht]
  | forwardWrite c ht =>
    refine ⟨Or.inr rfl, fun _ => ?_, fun d hd => absurd hd (by simp)⟩
    simp only []
    rw [h3 c ht]

theorem mirrorInv_reachable (src : List Nat) (st : MirrorState)
    (h : MirrorReachable src st) : MirrorInv st := by
  induction h with
  | refl => exact mirrorInv_init src
  | tail _ hstep ih => exact mirrorInv_step _ _ hstep ih

/-! ## Concrete fixtures used by witnesses and counterexamples -/

/-- A gunzip oracle that fails on every input. -/
def gz0 : GunzipFn := fun _ => none

/-- An unmarshal oracle that fails on every input. -/
def unm0 : UnmarshalFn := fun _ _ => .error []

/-- A concrete session as produced by the first `NewSession` of a run. -/
def sess0 : Session := { id := [], seq := 1, host := [], recordIndex := 0 }

/-! ## Claim C1 -/

/-- Claim C1 as stated: in emission order, `seq` never decreases, and
strictly increases across distinct sessions. -/
def seqEmissionOrdered (l : List EmitRec) : Prop :=
  List.Pairwise (fun r1 r2 => r1.seq ≤ r2.seq ∧ (r1.sid ≠ r2.sid → r1.seq < r2.seq)) l

/-- Two sessions are created, then the newer session emits before the older
one: the older session's record is emitted last but carries the smaller
sequence number. -/
def c1ops : List RecorderOp :=
  [.newSession [], .newSession [], .emit 1, .emit 0]

/-- C1 (counterexample): the claimed emission-order law on `seq` fails on
the interleaving `c1ops` — the record of session 1 (seq 2) is emitted
before the record of session 0 (seq 1). -/
theorem c1_counterexample : ¬ seqEmissionOrdered (runOps c1ops).emitted := by
  unfold seqEmissionOrdered
  decide

/-- C1 (amended): `seq` is assigned once per session at `NewSession`, so
all records of one session share its `seq`, records of sessions created
earlier have strictly smaller `seq` than records of sessions created later,
and records of distinct sessions never share a `seq`; emission order alone
does not bound `seq`. -/
theorem c1_seq_follows_session_creation (ops : List RecorderOp) (r1 r2 : EmitRec)
    (h1 : r1 ∈ (runOps ops).emitted) (h2 : r2 ∈ (runOps ops).emitted) :
    (r1.sid = r2.sid → r1.seq = r2.seq) ∧
    (r1.sid < r2.sid → r1.seq < r2.seq) ∧
    (r1.sid ≠ r2.sid → r1.seq ≠ r2.seq) := by
  have i1 := ((recInv_runOps ops).2.2.1 r1 h1).2
  have i2 := ((recInv_runOps ops).2.2.1 r2 h2).2
  refine ⟨fun h => by rw [i1, i2, h], fun h => by rw [i1, i2]; omega,
    fun h => by rw [i1, i2]; omega⟩

/-- One session emitting twice. -/
def c1wOps : List RecorderOp := [.newSession [], .emit 0, .emit 0]

theorem c1_seq_follows_session_creation_witness :
    (⟨0, 1, 1⟩ : EmitRec) ∈ (runOps c1wOps).emitted ∧
    (⟨0, 1, 2⟩ : EmitRec) ∈ (runOps c1wOps).emitted ∧
    (⟨0, 1, 1⟩ : EmitRec).seq = (⟨0, 1, 2⟩ : EmitRec).seq :=
  ⟨by decide, by decide,
    (c1_seq_follows_session_creation c1wOps ⟨0, 1, 1⟩ ⟨0, 1, 2⟩ (by decide) (by decide)).1 rfl⟩

/-! ## Claim C7 -/

/-- Under the serialised schedule (index assignment and write fused into
one step) the record indexes a session emits are exactly `1, 2, …` in
order.  The code does not enforce this schedule: `nextRecordIndex` runs
outside the recorder's mutex, so this lemma describes the intended
behaviour, not a guarantee — see `c7_index_race_out_of_order`. -/
theorem recorder_serialised_indices (ops : List RecorderOp) (sid : Nat) :
    emittedIndices (runOps ops) sid = List.range' 1 (sessionCount (runOps ops) sid) ∧
    List.Pairwise (· < ·) (emittedIndices (runOps ops) sid) ∧
    (emittedIndices (runOps ops) sid).head? =
      (if sessionCount (runOps ops) sid = 0 then none else some 1) := by
  have h := (recInv_runOps ops).2.2.2 sid
  refine ⟨h, ?_, ?_⟩
  · rw [h]
    exact List.pairwise_lt_range' 1 _
  · rw [h]
    cases hc : sessionCount (runOps ops) sid with
    | zero => rfl
    | succ n => rw [List.range'_succ, List.head?_cons]; rfl

/-- Fine-grained recorder operations, with the two halves of a
`Session.Log*` call as separate steps, matching the source's
synchronisation: `assignIndex sid` is the unsynchronised
`s.recordIndex++` of `nextRecordIndex` together with building the record
(the record, index already stamped, is now waiting at `r.mu.Lock()`);
`write k` is `Recorder.write` appending the `k`-th waiting record, the
only part the recorder's mutex serialises — waiting goroutines acquire
the mutex in arbitrary order.  The increment itself is modelled as atomic;
the real data race on the shared `int64` admits these interleavings and
more (e.g. duplicated indexes), so every behaviour exhibited here is a
behaviour of the program. -/
inductive RaceOp where
  | newSession (host : Bytes)
  | assignIndex (sid : Nat)
  | write (k : Nat)
deriving Repr, DecidableEq

/-- Recorder state for the fine-grained model: as `RecorderSt`, plus the
records whose index is assigned but whose write has not yet acquired the
mutex. -/
structure RaceSt where
  sessionSeq : Nat := 0
  sessions : List Session := []
  pending : List EmitRec := []
  emitted : List EmitRec := []
deriving Repr, DecidableEq

def raceStep (st : RaceSt) : RaceOp → RaceSt
  | .newSession host =>
    let seq := st.sessionSeq + 1
    { st with
      sessionSeq := seq
      sessions := st.sessions ++ [{ id := [], seq := seq, host := host, recordIndex := 0 }] }
  | .assignIndex sid =>
    match st.sessions[sid]? with
    | none => st
    | some s =>
      let r := nextRecordIndex s
      { st with
        sessions := st.sessions.set sid r.2
        pending := st.pending ++ [⟨sid, s.seq, r.1⟩] }
  | .write k =>
    match st.pending[k]? with
    | none => st
    | some rec =>
      { st with pending := st.pending.eraseIdx k, emitted := st.emitted ++ [rec] }

def runRaceOps (ops : List RaceOp) : RaceSt :=
  ops.foldl raceStep {}

/-- Claim C7's per-session index law, as stated: records of one session
appear in the log in strictly increasing index order. -/
def indexEmissionOrdered (l : List EmitRec) : Prop :=
  List.Pairwise (fun r1 r2 => r1.sid = r2.sid → r1.index < r2.index) l

/-- The two direction-parser goroutines of one session each run a
`Session.Log*` call: both assign their index (1 and 2), then the second
goroutine wins the mutex first. -/
def c7ops : List RaceOp :=
  [.newSession [], .assignIndex 0, .assignIndex 0, .write 1, .write 0]

/-- C7: the per-session index invariant is not a program property.  One
`Session` is shared by the two concurrently running direction parsers, and
`nextRecordIndex` increments `s.recordIndex` before `Recorder.write` takes
`r.mu`, outside any lock.  In the interleaving `c7ops` both goroutines are
assigned their indexes (1 then 2) and the later one acquires the mutex
first: the session's records are emitted with index 2 before index 1, and
the first emitted record of the session does not have index 1. -/
theorem c7_index_race_out_of_order :
    (runRaceOps c7ops).emitted = [⟨0, 1, 2⟩, ⟨0, 1, 1⟩] ∧
    ¬ indexEmissionOrdered (runRaceOps c7ops).emitted ∧
    (runRaceOps c7ops).pending = [] := by
  refine ⟨by decide, ?_, by decide⟩
  unfold indexEmissionOrdered
  decide

/-! ## Claim C2 -/

/-- The state after `TeeReader` has pulled the only source chunk and is
blocked in the unbuffered pipe write, the parser not having read yet. -/
def mirrorBlocked : MirrorState :=
  { src := [], pendingMirror := some 0, teeBuf := none, mirrored := [], forwarded := [] }

/-- The unique successor of `mirrorBlocked`: the parser consuming the
mirrored chunk. -/
def mirrorAfterConsume : MirrorState :=
  { src := [], pendingMirror := none, teeBuf := some 0, mirrored := [0], forwarded := [] }

/-- C2: the forward copy is coupled to the parser.  From the initial state
with one source chunk the pipe reaches `mirrorBlocked`, where nothing has
been forwarded and the only enabled transition is the parser-side read of
the unbuffered pipe; moreover in every reachable state the forwarded bytes
are a prefix of the bytes delivered to the parser — the duplicator never
drops anything for the parser side and the forward write waits on it. -/
theorem c2_forward_blocked_on_mirror :
    MirrorReachable [0] mirrorBlocked ∧
    mirrorBlocked.forwarded = [] ∧
    (∀ st, MirrorStep mirrorBlocked st → st = mirrorAfterConsume) ∧
    (∀ src st, MirrorReachable src st → ∃ t, st.mirrored = st.forwarded ++ t) := by
  refine ⟨?_, rfl, ?_, ?_⟩
  · exact Relation.ReflTransGen.single
      (MirrorStep.readSrc (mirrorInit [0]) 0 [] rfl rfl rfl)
  · intro st h
    cases h with
    | readSrc c rest hsrc hp ht => exact absurd hsrc (by simp [mirrorBlocked])
    | parserConsume c hp =>
      simp only [mirrorBlocked, Option.some.injEq] at hp
      subst hp
      rfl
    | forwardWrite c ht => exact absurd ht (by simp [mirrorBlocked])
  · intro src st h
    have hi := mirrorInv_reachable src st h
    cases ht : st.teeBuf with
    | none => exact ⟨[], by rw [hi.2.1 ht, List.append_nil]⟩
    | some c => exact ⟨[c], hi.2.2 c ht⟩

theorem c2_forward_blocked_on_mirror_witness :
    MirrorReachable [0] mirrorBlocked ∧
    (∃ t, mirrorBlocked.mirrored = mirrorBlocked.forwarded ++ t) :=
  ⟨c2_forward_blocked_on_mirror.1,
    c2_forward_blocked_on_mirror.2.2.2 [0] mirrorBlocked c2_forward_blocked_on_mirror.1⟩

/-! ## Claim C3 -/

/-- The frame `ReadFrame` builds from a compressed-flagged envelope whose
payload fails gzip: raw bytes kept, `Data` nil. -/
def c3BugFrame : GRPCFrame :=
  { compressed := true, data := none, rawData := [222, 173, 190, 239] }

/-- The gRPC message the stream parser emits for `c3BugFrame`. -/
def c3BugMsg : GRPCMessage :=
  { service := strB "pkg.v1.Echo", method := strB "Unary"
    fullMethod := strB "/pkg.v1.Echo/Unary", direction := .serverToClient
    frame := some c3BugFrame, message := none, json := []
    error := strB "gzip decompression failed", isStreaming := true
    frameIndex := 0, compressedF := true }

/-- C3: on a frame with the compressed bit set whose payload is not valid
gzip, the emitted record carries `error = "gzip decompression failed"` as
the claim says, but `grpc_raw` stays empty (absent): `LogGRPC` base64s
`Frame.Data`, which is nil after a failed decompression, although the raw
compressed bytes were retained in `Frame.RawData` for exactly this case. -/
theorem c3_gzip_failure_raw_dropped (gz : GunzipFn) (unm : UnmarshalFn)
    (registry : Option MessageRegistryM) (s : Session)
    (hgz : gz [222, 173, 190, 239] = none) :
    parseGRPCStream gz unm registry [1, 0, 0, 0, 4, 222, 173, 190, 239]
      (strB "pkg.v1.Echo") (strB "Unary") false = [c3BugMsg] ∧
    c3BugMsg.error = strB "gzip decompression failed" ∧
    c3BugMsg.frame = some c3BugFrame ∧
    c3BugFrame.rawData ≠ [] ∧
    (logGRPC s c3BugMsg).2.error = strB "gzip decompression failed" ∧
    (logGRPC s c3BugMsg).2.grpcRawData = [] := by
  have hrf : readFrame gz [1, 0, 0, 0, 4, 222, 173, 190, 239] = .ok (c3BugFrame, []) := by
    simp only [readFrame, decompressGzip]
    norm_num [c3BugFrame, hgz]
    exact fun h => absurd h (by decide)
  refine ⟨?_, rfl, rfl, by decide, ?_, ?_⟩
  · show parseGRPCStreamLoop gz unm registry (strB "pkg.v1.Echo") (strB "Unary") false
      ([1, 0, 0, 0, 4, 222, 173, 190, 239].length + 1) [1, 0, 0, 0, 4, 222, 173, 190, 239] 0
      = [c3BugMsg]
    rw [show ([1, 0, 0, 0, 4, 222, 173, 190, 239] : Bytes).length + 1 = 10 from rfl]
    rw [show (10 : Nat) = 9 + 1 from rfl, parseGRPCStreamLoop, hrf]
    rfl
  · rfl
  · rfl

theorem c3_gzip_failure_raw_dropped_witness :
    gz0 [222, 173, 190, 239] = none ∧
    parseGRPCStream gz0 unm0 none [1, 0, 0, 0, 4, 222, 173, 190, 239]
      (strB "pkg.v1.Echo") (strB "Unary") false = [c3BugMsg] ∧
    (logGRPC sess0 c3BugMsg).2.grpcRawData = [] := by
  have h := c3_gzip_failure_raw_dropped gz0 unm0 none sess0 rfl
  exact ⟨rfl, h.1, h.2.2.2.2.2⟩

/-! ## Claim C4 -/

theorem hasPrefB_append_false (p q t : Bytes) (h : hasPrefB (p.take q.length) q = false) :
    hasPrefB p (q ++ t) = false := by
  rw [hasPrefB_append_split, h, Bool.false_and]

/-- C4 (counterexample): a content type beginning with
`application/connect+json` is not treated as Connect JSON by the
classifier (nor as any other gRPC/Connect kind): the `IsConnectJSON` test
matches `application/json`, not `application/connect+json`. -/
theorem c4_counterexample :
    (parseContentType (strB "application/connect+json")).isConnectJSON = false ∧
    isGRPCContentType (strB "application/connect+json") = false := by
  constructor <;> decide

/-- C4 (amended): `application/grpc[+...]` and
`application/connect+proto[...]` select envelope framing,
`application/proto` (bare or with parameters) selects a single raw
protobuf message, but every content type beginning with
`application/connect+json` is classified as not gRPC/Connect at all
(all four classifier flags false); `application/json` is what the
classifier treats as Connect JSON. -/
theorem c4_content_type_classification (rest : Bytes) :
    (parseContentType (strB "application/grpc" ++ rest)).isGRPC = true ∧
    (parseContentType (strB "application/grpc" ++ rest)).hasEnvelopeFraming = true ∧
    (parseContentType (strB "application/connect+proto" ++ rest)).hasEnvelopeFraming = true ∧
    (parseContentType (strB "application/proto")).isConnectProto = true ∧
    (parseContentType (strB "application/proto;" ++ rest)).isConnectProto = true ∧
    (parseContentType (strB "application/json")).isConnectJSON = true ∧
    (parseContentType (strB "application/json;" ++ rest)).isConnectJSON = true ∧
    parseContentType (strB "application/connect+json" ++ rest) =
      ⟨false, false, false, false⟩ := by
  have hGrpc : toLowerB (strB "application/grpc" ++ rest)
      = strB "application/grpc" ++ toLowerB rest := by
    rw [toLowerB_append, show toLowerB (strB "application/grpc") = strB "application/grpc"
      from by decide]
  have hCsp : toLowerB (strB "application/connect+proto" ++ rest)
      = strB "application/connect+proto" ++ toLowerB rest := by
    rw [toLowerB_append, show toLowerB (strB "application/connect+proto")
      = strB "application/connect+proto" from by decide]
  have hPsemi : toLowerB (strB "application/proto;" ++ rest)
      = strB "application/proto;" ++ toLowerB rest := by
    rw [toLowerB_append, show toLowerB (strB "application/proto;")
      = strB "application/proto;" from by decide]
  have hJson : toLowerB (strB "application/json;" ++ rest)
      = strB "application/json;" ++ toLowerB rest := by
    rw [toLowerB_append, show toLowerB (strB "application/json;") = strB "application/json;"
      from by decide]
  have hCj : toLowerB (strB "application/connect+json" ++ rest)
      = strB "application/connect+json" ++ toLowerB rest := by
    rw [toLowerB_append, show toLowerB (strB "application/connect+json")
      = strB "application/connect+json" from by decide]
  have h1 : (parseContentType (strB "application/grpc" ++ rest)).isGRPC = true := by
    show hasPrefB (strB "application/grpc") (toLowerB (strB "application/grpc" ++ rest)) = true
    rw [hGrpc]
    exact hasPrefB_append_self _ _
  have h3 : (parseContentType (strB "application/connect+proto" ++ rest)).isConnectStreamProto
      = true := by
    show hasPrefB (strB "application/connect+proto")
      (toLowerB (strB "application/connect+proto" ++ rest)) = true
    rw [hCsp]
    exact hasPrefB_append_self _ _
  refine ⟨h1, ?_, ?_, by decide, ?_, by decide, ?_, ?_⟩
  · show ((parseContentType (strB "application/grpc" ++ rest)).isGRPC
      || (parseContentType (strB "application/grpc" ++ rest)).isConnectStreamProto) = true
    rw [h1, Bool.true_or]
  · show ((parseContentType (strB "application/connect+proto" ++ rest)).isGRPC
      || (parseContentType (strB "application/connect+proto" ++ rest)).isConnectStreamProto)
      = true
    rw [h3, Bool.or_true]
  · show ((toLowerB (strB "application/proto;" ++ rest) == strB "application/proto")
      || hasPrefB (strB "application/proto;") (toLowerB (strB "application/proto;" ++ rest)))
      = true
    rw [hPsemi, hasPrefB_append_self, Bool.or_true]
  · show ((toLowerB (strB "application/json;" ++ rest) == strB "application/json")
      || hasPrefB (strB "application/json;") (toLowerB (strB "application/json;" ++ rest)))
      = true
    rw [hJson, hasPrefB_append_self, Bool.or_true]
  · show ContentTypeInfo.mk
        (hasPrefB (strB "application/grpc") (toLowerB (strB "application/connect+json" ++ rest)))
        ((toLowerB (strB "application/connect+json" ++ rest) == strB "application/proto")
          || hasPrefB (strB "application/proto;")
            (toLowerB (strB "application/connect+json" ++ rest)))
        (hasPrefB (strB "application/connect+proto")
          (toLowerB (strB "application/connect+json" ++ rest)))
        ((toLowerB (strB "application/connect+json" ++ rest) == strB "application/json")
          || hasPrefB (strB "application/json;")
            (toLowerB (strB "application/connect+json" ++ rest)))
        = ContentTypeInfo.mk false false false false
    rw [hCj]
    rw [hasPrefB_append_false _ _ _ (by decide)]
    rw [beq_append_ne_of_length_lt _ _ _ (by decide)]
    rw [hasPrefB_append_false (strB "application/proto;") _ _ (by decide)]
    rw [hasPrefB_append_false (strB "application/connect+proto") _ _ (by decide)]
    rw [beq_append_ne_of_length_lt _ _ _ (by decide)]
    rw [hasPrefB_append_false (strB "application/json;") _ _ (by decide)]
    rfl

/-! ## Claim C5 -/

/-- C5 (counterexample): a response observed while the pending-request slot
is empty emits no record at all of type `error` — the claimed
"response without request" error record does not exist in the code; the
response is logged and its body goes down the bulk-body path. -/
theorem c5_counterexample :
    responseStep gz0 unm0 none {} 200 (strB "text/plain") (strB "pong")
      = ([.response 200 (strB "text/plain"), .body .serverToClient (strB "pong")], {}) ∧
    ((responseStep gz0 unm0 none {} 200 (strB "text/plain") (strB "pong")).1.all
      (fun e => eventRecordType e != strB "error")) = true := by
  constructor <;> decide

theorem sse_map_all_not_error (l : List SSEEventM) :
    ((l.map ParserEvent.sse).all (fun e => eventRecordType e != strB "error")) = true := by
  induction l with
  | nil => rfl
  | cons x xs ih =>
    rw [List.map_cons, List.all_cons, ih, Bool.and_true]
    exact (by decide : (strB "sse" != strB "error") = true)

/-- C5 (amended): when the pending-request slot is empty, observing a
response emits the `response` record and routes the body to the SSE or
bulk-body path; no record of type `error` is emitted, and processing
continues with a cleared slot. -/
theorem c5_no_error_record (gz : GunzipFn) (unm : UnmarshalFn)
    (registry : Option MessageRegistryM) (status : Nat) (contentType body : Bytes) :
    ((responseStep gz unm registry {} status contentType body).1.all
      (fun e => eventRecordType e != strB "error")) = true ∧
    (responseStep gz unm registry {} status contentType body).1.head?
      = some (.response status contentType) ∧
    (responseStep gz unm registry {} status contentType body).2 = {} := by
  have hr : (eventRecordType (ParserEvent.response status contentType) != strB "error")
      = true :=
    (by decide : (strB "response" != strB "error") = true)
  have hred : responseStep gz unm registry {} status contentType body
      = (if hasSubstr (strB "text/event-stream") contentType then
          (ParserEvent.response status contentType :: (sseAllEvents body).map ParserEvent.sse,
            ({} : PendingSlot))
        else
          (ParserEvent.response status contentType ::
            (if 0 < body.length then [ParserEvent.body .serverToClient body] else []),
            ({} : PendingSlot))) := by
    unfold responseStep
    simp only [show (({} : PendingSlot)).lastRequestURL = ([] : Bytes) from rfl,
      show (({} : PendingSlot)).lastRequestIsGRPC = false from rfl,
      bne_self_eq_false, Bool.and_false, Bool.false_and]
    rw [if_neg (by simp), if_neg (by simp)]
  rw [hred]
  refine ⟨?_, ?_, ?_⟩
  · split
    · rw [List.all_cons, hr, Bool.true_and]
      exact sse_map_all_not_error _
    · rw [List.all_cons, hr, Bool.true_and]
      split
      · rw [List.all_cons]
        exact (by decide : ((strB "body" != strB "error") && true) = true)
      · rfl
  · split <;> rfl
  · split <;> rfl

/-! ## Claim C6 -/

/-- C6 (counterexample): a POST body of zero bytes with content-type
`application/grpc` produces no grpc record at all (the stream loop hits
EOF before any frame), not one with `grpc_data = "{}"`. -/
theorem c6_counterexample :
    parserParseGRPCBody gz0 unm0 none [] (strB "/pkg.v1.Echo/Unary") true
      (strB "application/grpc") = [] := by
  decide

/-- The message produced for one envelope with a zero-length payload. -/
def c6EmptyMsg : GRPCMessage :=
  { service := strB "pkg.v1.Echo", method := strB "Unary"
    fullMethod := strB "/pkg.v1.Echo/Unary", direction := .clientToServer
    frame := some { compressed := false, data := some [], rawData := [] }
    message := none, json := strB "{}", error := []
    isStreaming := true, frameIndex := 0, compressedF := false }

/-- C6 (amended): an empty gRPC body produces no records; a body that is a
single envelope with a zero-length payload (`[0, 0, 0, 0, 0]`) produces
exactly one grpc record with `grpc_data = "{}"` and no error. -/
theorem c6_empty_body_vs_empty_frame (gz : GunzipFn) (unm : UnmarshalFn)
    (registry : Option MessageRegistryM) :
    parserParseGRPCBody gz unm registry [] (strB "/pkg.v1.Echo/Unary") true
      (strB "application/grpc") = [] ∧
    parserParseGRPCBody gz unm registry [0, 0, 0, 0, 0] (strB "/pkg.v1.Echo/Unary") true
      (strB "application/grpc") = [c6EmptyMsg] ∧
    c6EmptyMsg.json = strB "{}" ∧ c6EmptyMsg.error = [] :=
  ⟨rfl, rfl, rfl, rfl⟩

/-! ## Claim C8 -/

/-- C8 (confirmed): every minted leaf has `AuthorityKeyId` equal to the
CA's `SubjectKeyId`, is signed with the CA certificate and key (hence
chains to the root), has `NotBefore = now − 24h ≤ now ≤ NotAfter`,
`IsCA = false`, and a SAN that is the host as an IP address when it parses
as an IP literal and as a DNS name otherwise. -/
theorem c8_leaf_certificate (skid : Bytes) (keyId : Nat) (optDays : Int) (host : Bytes)
    (now : Int) (parseIP : Bytes → Option Bytes) (serial : Nat) (leafSkid : Bytes) :
    (generateCert (newCA skid keyId optDays) host now parseIP serial leafSkid).tmpl.authorityKeyId
      = skid ∧
    (generateCert (newCA skid keyId optDays) host now parseIP serial leafSkid).parentSubjectKeyId
      = skid ∧
    (generateCert (newCA skid keyId optDays) host now parseIP serial leafSkid).signerKeyId
      = keyId ∧
    (generateCert (newCA skid keyId optDays) host now parseIP serial leafSkid).tmpl.isCA
      = false ∧
    (generateCert (newCA skid keyId optDays) host now parseIP serial leafSkid).tmpl.notBefore
      = now - 86400 ∧
    (generateCert (newCA skid keyId optDays) host now parseIP serial leafSkid).tmpl.notBefore
      ≤ now ∧
    now ≤ (generateCert (newCA skid keyId optDays) host now parseIP serial leafSkid).tmpl.notAfter ∧
    (generateCert (newCA skid keyId optDays) host now parseIP serial leafSkid).tmpl.ipAddresses
      = (match parseIP host with | some ip => [ip] | none => []) ∧
    (generateCert (newCA skid keyId optDays) host now parseIP serial leafSkid).tmpl.dnsNames
      = (match parseIP host with | some _ => [] | none => [host]) := by
  have hpos : 0 < normCertValidityDays optDays := by
    unfold normCertValidityDays
    split <;> omega
  refine ⟨rfl, rfl, rfl, rfl, ?_, ?_, ?_, rfl, rfl⟩
  · show now - 24 * 3600 = now - 86400
    norm_num
  · show now - 24 * 3600 ≤ now
    omega
  · show now ≤ now + normCertValidityDays optDays * 86400
    have h2 : 0 ≤ normCertValidityDays optDays * 86400 := mul_nonneg hpos.le (by norm_num)
    omega

/-! ## Claim C9 -/

/-- The spec's hostname validity — lowercase letters, digits, `.`, `-`,
`_`, length 1..255 — stated from the spec's words, for comparison with the
code's `isValidHostname`. -/
def specValidHostname (s : Bytes) : Bool :=
  decide (s.length ≠ 0) && decide (s.length ≤ 255) &&
    s.all (fun c =>
      (decide (97 ≤ c) && decide (c ≤ 122)) ||
      (decide (48 ≤ c) && decide (c ≤ 57)) ||
      c == 45 || c == 46 || c == 95)

/-- C9 (counterexample): the SNI extension carrying the name `ABC` is
returned by the sniffer although it violates the spec's lowercase-only
hostname validity: `isValidHostname` also accepts uppercase letters. -/
theorem c9_counterexample :
    parseSNIExtension [0, 6, 0, 0, 3, 65, 66, 67] = [65, 66, 67] ∧
    specValidHostname [65, 66, 67] = false ∧
    isValidHostname [65, 66, 67] = true := by
  refine ⟨by decide, by decide, by decide⟩

theorem sniLoop_valid (data : Bytes) (listEnd : Nat) :
    ∀ (fuel pos : Nat) (r : Bytes), sniLoop data listEnd fuel pos = r → r ≠ [] →
      isValidHostname r = true := by
  intro fuel
  induction fuel with
  | zero =>
    intro pos r hr hne
    rw [← hr] at hne
    exact absurd rfl hne
  | succ n ih =>
    intro pos r hr hne
    simp only [sniLoop] at hr
    split at hr
    · split at hr
      · rw [← hr] at hne; exact absurd rfl hne
      · split at hr
        · rw [← hr] at hne; exact absurd rfl hne
        · split at hr
          · split at hr
            · rw [← hr]; assumption
            · exact ih _ _ hr hne
          · exact ih _ _ hr hne
    · rw [← hr] at hne; exact absurd rfl hne

/-- C9 (amended): every SNI the sniffer returns passes the code's
hostname validity — length 1..255 and characters in `[a-zA-Z0-9.-_]`,
uppercase letters included (the lowercase-only restriction of the spec is
not enforced). -/
theorem c9_sni_passes_code_validity (data : Bytes) (h : parseSNIExtension data ≠ []) :
    isValidHostname (parseSNIExtension data) = true := by
  unfold parseSNIExtension at h ⊢
  by_cases hlen : data.length < 5
  · rw [if_pos hlen] at h
    exact absurd rfl h
  · rw [if_neg hlen] at h ⊢
    exact sniLoop_valid data _ _ _ _ rfl h

theorem c9_sni_passes_code_validity_witness :
    parseSNIExtension [0, 6, 0, 0, 3, 65, 66, 67] ≠ [] ∧
    isValidHostname (parseSNIExtension [0, 6, 0, 0, 3, 65, 66, 67]) = true :=
  ⟨by decide, c9_sni_passes_code_validity [0, 6, 0, 0, 3, 65, 66, 67] (by decide)⟩

/-! ## Claim C10 -/

/-- C10 (confirmed): the `sse` record's `event_data` is
`truncateString(data, 1000)` — data of at most 1000 bytes is stored
unchanged, longer data is cut to its first 1000 bytes with `"..."`
appended. -/
theorem c10_sse_event_data_truncated (s : Session) (host : Bytes) (ev : SSEEventM) :
    ((logSSE s host ev).2).eventData = truncateString ev.data 1000 ∧
    (ev.data.length ≤ 1000 → ((logSSE s host ev).2).eventData = ev.data) ∧
    (1000 < ev.data.length →
      ((logSSE s host ev).2).eventData = ev.data.take 1000 ++ strB "...") := by
  refine ⟨rfl, ?_, ?_⟩
  · intro h
    show truncateString ev.data 1000 = ev.data
    unfold truncateString
    rw [if_pos h]
  · intro h
    show truncateString ev.data 1000 = ev.data.take 1000 ++ strB "..."
    unfold truncateString
    rw [if_neg (by omega)]

/-- An SSE event with a 1001-byte data field. -/
def c10Event : SSEEventM := { data := List.replicate 1001 97 }

theorem c10_sse_event_data_truncated_witness :
    1000 < c10Event.data.length ∧
    ((logSSE sess0 [] c10Event).2).eventData = List.replicate 1000 97 ++ strB "..." := by
  have hdata : c10Event.data = List.replicate 1001 97 := rfl
  have hlen : c10Event.data.length = 1001 := by rw [hdata, List.length_replicate]
  refine ⟨by rw [hlen]; norm_num, ?_⟩
  rw [(c10_sse_event_data_truncated sess0 [] c10Event).2.2 (by rw [hlen]; norm_num)]
  rw [hdata, List.take_replicate, min_eq_left (by norm_num)]

end CursorTap
